import Mathlib

/-!
Shallow embedding of the order-ingestion core of `src/main.py`
(email order taker, Streamlit session app).

The Python code keeps its mutable state in `st.session_state`:
a list `orders` of saved order records (Python dicts) and an integer
`internal_tracking_counter`.  The admission routine
`save_order_to_state(extracted_data)` scans `orders` for a record whose
`'order_id'` equals `extracted_data.get('order_id')`; on a match it
returns `(False, "Not Assigned (Duplicate Order)")`, otherwise it
increments the counter, formats `f"ITN-{counter:07d}"`, builds the
record dict and appends it, returning `(True, internal_tracking_number)`.

JSON values (the result of `json.loads` on the model response) are
modelled by the mutual inductive `JValue`/`JArray`/`JObject`; a Python
dict is a `JObject` (a finite sequence of key/value bindings, keys
unique in any dict produced by `json.loads`).  Python `None` (both a
JSON `null` and the result of `.get` on a missing key) is `JValue.null`.
State mutation is modelled by explicit state passing: each embedded
operation takes the session state and returns the new state together
with the Python return value.  The ambient timestamp
`datetime.datetime.now().strftime(...)` is passed in as an explicit
`now : String` argument.
-/

mutual

inductive JValue where
  | null : JValue
  | bool : Bool → JValue
  | int : Int → JValue
  | str : String → JValue
  | arr : JArray → JValue
  | obj : JObject → JValue
deriving DecidableEq

inductive JArray where
  | nil : JArray
  | cons : JValue → JArray → JArray
deriving DecidableEq

inductive JObject where
  | nil : JObject
  | cons : String → JValue → JObject → JObject
deriving DecidableEq

end

/-- Python `d.get(k)` on a dict coming from `json.loads`: the bound value
if the key is present, `None` (= `JValue.null`) otherwise.  A JSON
`null` stored under the key also comes back as `None`, which is the
same `JValue.null`.  `d[k]` on the saved records coincides with this
because the records always carry the accessed keys. -/
def dictGet (d : JObject) (k : String) : JValue :=
  match d with
  | .nil => JValue.null
  | .cons k' v rest => if k' = k then v else dictGet rest k

/-- Python `k in d`. -/
def hasKey (d : JObject) (k : String) : Bool :=
  match d with
  | .nil => false
  | .cons k' _ rest => if k' = k then true else hasKey rest k

/-- Python truthiness of a dict: the empty dict is falsy, every
non-empty dict is truthy (`if extracted_data:` in the main flow). -/
def truthy (d : JObject) : Bool :=
  match d with
  | .nil => false
  | .cons _ _ _ => true

/-- Little-endian decimal digits of `n`, with explicit fuel so that the
recursion is structural (the call site always supplies `fuel = n`,
which is enough since `n / 10 < n` for `n ≥ 1`). -/
def decDigitsAux : Nat → Nat → List Nat
  | _, 0 => []
  | 0, _ + 1 => []
  | fuel + 1, n + 1 => ((n + 1) % 10) :: decDigitsAux fuel ((n + 1) / 10)

/-- Little-endian decimal digits of `n` (`[]` for `n = 0`). -/
def decDigits (n : Nat) : List Nat := decDigitsAux n n

/-- The decimal digit characters of `n`, most significant first. -/
def digitChars (n : Nat) : List Char := (decDigits n).reverse.map Nat.digitChar

/-- Left-pad a character list with `'0'` to width 7: the `07` in the
Python format spec `f"{n:07d}"`. -/
def pad7 (cs : List Char) : List Char := List.replicate (7 - cs.length) '0' ++ cs

/-- `f"ITN-{n:07d}"` for a natural `n`: the internal tracking number
string.  (For `n = 0` Python renders the digit `"0"` and pads to
`"0000000"`; padding the empty digit list gives the same string.) -/
def itnFormat (n : Nat) : String := "ITN-" ++ String.mk (pad7 (digitChars n))

/-- The `st.session_state` fields the order ledger lives in:
`st.session_state.orders` and `st.session_state.internal_tracking_counter`. -/
structure SessionState where
  orders : List JObject
  internal_tracking_counter : Nat
deriving DecidableEq

/-- The state after the session-state initialization block:
`orders = []`, `internal_tracking_counter = 0`. -/
def initialState : SessionState := ⟨[], 0⟩

/-- The dict literal `data_to_save` built in `save_order_to_state`
(source lines 70-79), with the keys in source order. -/
def data_to_save (extracted_data : JObject) (internal_tracking_number : String)
    (now : String) : JObject :=
  .cons "order_id" (dictGet extracted_data "order_id")
    (.cons "internal_tracking_number" (.str internal_tracking_number)
    (.cons "order_date" (dictGet extracted_data "order_date")
    (.cons "customer_name" (dictGet extracted_data "customer_name")
    (.cons "total_amount" (dictGet extracted_data "total_amount")
    (.cons "delivery_address" (dictGet extracted_data "delivery_address")
    (.cons "extraction_time" (.str now)
    (.cons "raw_json" (.obj extracted_data) .nil)))))))

/-- `save_order_to_state(extracted_data)` from `src/main.py`, with the
session state threaded explicitly and the wall-clock timestamp passed
as `now`.  Returns the new state and the Python return pair
`(saved_successfully, message_or_tracking_number)`. -/
def save_order_to_state (s : SessionState) (extracted_data : JObject) (now : String) :
    SessionState × Bool × String :=
  let order_id := dictGet extracted_data "order_id"
  if s.orders.any (fun order => dictGet order "order_id" == order_id) then
    (s, false, "Not Assigned (Duplicate Order)")
  else
    let counter := s.internal_tracking_counter + 1
    let internal_tracking_number := itnFormat counter
    ({ orders := s.orders ++ [data_to_save extracted_data internal_tracking_number now],
       internal_tracking_counter := counter },
     true, internal_tracking_number)

/-- The main-flow hand-off around `save_order_to_state` (source lines
174-185), restricted to extraction results that are JSON objects:
`extract_order_info` returns `None` on failure (`none` here) or the
parsed object; the guard `if extracted_data:` only reaches the save
call when the dict is truthy.  The second component is `none` when the
candidate was never handed to admission, `some (flag, msg)` with the
save result otherwise. -/
def process_extracted (s : SessionState) (extracted_data : Option JObject)
    (now : String) : SessionState × Option (Bool × String) :=
  match extracted_data with
  | none => (s, none)
  | some d =>
    if truthy d then
      ((save_order_to_state s d now).1, some (save_order_to_state s d now).2)
    else
      (s, none)

/-- One row of `display_data` (source lines 254-262): the projection of
a saved order record used by the history table. -/
def displayRow (order : JObject) : JObject :=
  .cons "Order ID" (dictGet order "order_id")
    (.cons "Internal Tracking No." (dictGet order "internal_tracking_number")
    (.cons "Order Date" (dictGet order "order_date")
    (.cons "Customer Name" (dictGet order "customer_name")
    (.cons "Total Amount" (dictGet order "total_amount")
    (.cons "Delivery Address" (dictGet order "delivery_address")
    (.cons "Extraction Time" (dictGet order "extraction_time") .nil))))))

/-- The order-history display path (source lines 250-265): build
`display_data` by iterating `st.session_state.orders` in insertion
order, then reverse the fresh copy (`display_data.reverse()`) for
newest-first display.  The routine only reads the session state, so the
returned state is the input state. -/
def order_history_display (s : SessionState) : SessionState × List JObject :=
  (s, (s.orders.map displayRow).reverse)

/-- Run a sequence of admission calls: each element is the candidate
dict together with the timestamp `datetime.now()` yields at that call. -/
def runAdmissions (s : SessionState) : List (JObject × String) → SessionState
  | [] => s
  | (c, t) :: rest => runAdmissions (save_order_to_state s c t).1 rest

/-- How many calls of the sequence return `saved_successfully = True`. -/
def countSuccesses (s : SessionState) : List (JObject × String) → Nat
  | [] => 0
  | (c, t) :: rest =>
    (if (save_order_to_state s c t).2.1 then 1 else 0) +
      countSuccesses (save_order_to_state s c t).1 rest

/-- The entries appended by the successful calls of the sequence, in
call order (each call appends the suffix it added to `orders`). -/
def admittedEntries (s : SessionState) : List (JObject × String) → List JObject
  | [] => []
  | (c, t) :: rest =>
    (save_order_to_state s c t).1.orders.drop s.orders.length ++
      admittedEntries (save_order_to_state s c t).1 rest

/-- Value of a little-endian decimal digit list. -/
def fromDigits : List Nat → Nat
  | [] => 0
  | d :: rest => d + 10 * fromDigits rest

/-- Numeric value of a most-significant-first decimal character string
(leading zeros do not change the value). -/
def decVal (cs : List Char) : Nat :=
  cs.foldl (fun a c => 10 * a + (c.toNat - 48)) 0

/-! Field projections of the saved record: `data_to_save` binds exactly
the keys written in the source dict literal, and no `"items"` key. -/

theorem dictGet_save_order_id (c : JObject) (itn now : String) :
    dictGet (data_to_save c itn now) "order_id" = dictGet c "order_id" := rfl

theorem dictGet_save_itn (c : JObject) (itn now : String) :
    dictGet (data_to_save c itn now) "internal_tracking_number" = .str itn := rfl

theorem dictGet_save_order_date (c : JObject) (itn now : String) :
    dictGet (data_to_save c itn now) "order_date" = dictGet c "order_date" := rfl

theorem dictGet_save_customer_name (c : JObject) (itn now : String) :
    dictGet (data_to_save c itn now) "customer_name" = dictGet c "customer_name" := rfl

theorem dictGet_save_total_amount (c : JObject) (itn now : String) :
    dictGet (data_to_save c itn now) "total_amount" = dictGet c "total_amount" := rfl

theorem dictGet_save_delivery_address (c : JObject) (itn now : String) :
    dictGet (data_to_save c itn now) "delivery_address" = dictGet c "delivery_address" := rfl

theorem dictGet_save_extraction_time (c : JObject) (itn now : String) :
    dictGet (data_to_save c itn now) "extraction_time" = .str now := rfl

theorem dictGet_save_raw_json (c : JObject) (itn now : String) :
    dictGet (data_to_save c itn now) "raw_json" = .obj c := rfl

theorem hasKey_save_items (c : JObject) (itn now : String) :
    hasKey (data_to_save c itn now) "items" = false := rfl

/-! Case analysis of one admission call. -/

/-- A duplicate `order_id` is found: the call rejects, the state is
returned unchanged, the message is the constant string. -/
theorem save_duplicate (s : SessionState) (c : JObject) (now : String)
    (h : s.orders.any
      (fun order => dictGet order "order_id" == dictGet c "order_id") = true) :
    save_order_to_state s c now = (s, false, "Not Assigned (Duplicate Order)") := by
  simp [save_order_to_state, h]

/-- No duplicate: the counter is incremented, the new record is
appended, the fresh tracking number is returned. -/
theorem save_fresh (s : SessionState) (c : JObject) (now : String)
    (h : s.orders.any
      (fun order => dictGet order "order_id" == dictGet c "order_id") = false) :
    save_order_to_state s c now =
      ({ orders := s.orders ++
           [data_to_save c (itnFormat (s.internal_tracking_counter + 1)) now],
         internal_tracking_counter := s.internal_tracking_counter + 1 },
       true, itnFormat (s.internal_tracking_counter + 1)) := by
  simp [save_order_to_state, h]

/-- A key without a binding reads back as `None`. -/
theorem dictGet_eq_null_of_hasKey_false (d : JObject) (k : String)
    (h : hasKey d k = false) : dictGet d k = JValue.null :=
  match d with
  | .nil => rfl
  | .cons k' _ rest => by
    by_cases hk : k' = k
    · rw [hasKey, if_pos hk] at h
      exact absurd h (by simp)
    · rw [hasKey, if_neg hk] at h
      rw [dictGet, if_neg hk]
      exact dictGet_eq_null_of_hasKey_false rest k h

/-! Per-call step facts, phrased on the projections of the result. -/

/-- One call adds one to the counter on success, zero on rejection. -/
theorem save_step_counter (s : SessionState) (c : JObject) (now : String) :
    (save_order_to_state s c now).1.internal_tracking_counter =
      s.internal_tracking_counter +
        (if (save_order_to_state s c now).2.1 then 1 else 0) := by
  cases hd : s.orders.any
      (fun order => dictGet order "order_id" == dictGet c "order_id") with
  | true => rw [save_duplicate s c now hd]; simp
  | false => rw [save_fresh s c now hd]; simp

/-- One call appends one entry on success, zero on rejection. -/
theorem save_step_length (s : SessionState) (c : JObject) (now : String) :
    (save_order_to_state s c now).1.orders.length =
      s.orders.length + (if (save_order_to_state s c now).2.1 then 1 else 0) := by
  cases hd : s.orders.any
      (fun order => dictGet order "order_id" == dictGet c "order_id") with
  | true => rw [save_duplicate s c now hd]; simp
  | false => rw [save_fresh s c now hd]; simp

/-- One call keeps the ledger a prefix of the new ledger. -/
theorem save_step_orders (s : SessionState) (c : JObject) (now : String) :
    (save_order_to_state s c now).1.orders =
      s.orders ++ (save_order_to_state s c now).1.orders.drop s.orders.length := by
  cases hd : s.orders.any
      (fun order => dictGet order "order_id" == dictGet c "order_id") with
  | true => rw [save_duplicate s c now hd]; simp
  | false => rw [save_fresh s c now hd]; simp [List.drop_left]

/-- One call preserves the tracking-number shape of the ledger. -/
theorem save_step_itns (s : SessionState) (c : JObject) (now : String)
    (h2 : s.orders.map (fun o => dictGet o "internal_tracking_number") =
      (List.range s.internal_tracking_counter).map
        (fun i => JValue.str (itnFormat (i + 1)))) :
    (save_order_to_state s c now).1.orders.map
        (fun o => dictGet o "internal_tracking_number") =
      (List.range (save_order_to_state s c now).1.internal_tracking_counter).map
        (fun i => JValue.str (itnFormat (i + 1))) := by
  cases hd : s.orders.any
      (fun order => dictGet order "order_id" == dictGet c "order_id") with
  | true => rw [save_duplicate s c now hd]; exact h2
  | false =>
    rw [save_fresh s c now hd]
    show (s.orders ++
        [data_to_save c (itnFormat (s.internal_tracking_counter + 1)) now]).map _ =
      (List.range (s.internal_tracking_counter + 1)).map _
    rw [List.map_append, h2, List.range_succ, List.map_append]
    simp [dictGet_save_itn]

/-- One call preserves pairwise distinctness of the stored ids. -/
theorem save_step_pairwise (s : SessionState) (c : JObject) (now : String)
    (h : s.orders.Pairwise (fun a b => dictGet a "order_id" ≠ dictGet b "order_id")) :
    (save_order_to_state s c now).1.orders.Pairwise
      (fun a b => dictGet a "order_id" ≠ dictGet b "order_id") := by
  cases hd : s.orders.any
      (fun order => dictGet order "order_id" == dictGet c "order_id") with
  | true => rw [save_duplicate s c now hd]; exact h
  | false =>
    rw [save_fresh s c now hd]
    show (s.orders ++
        [data_to_save c (itnFormat (s.internal_tracking_counter + 1)) now]).Pairwise _
    rw [List.pairwise_append]
    refine ⟨h, List.pairwise_singleton _ _, ?_⟩
    intro a ha b hb
    rw [List.mem_singleton] at hb
    subst hb
    rw [dictGet_save_order_id]
    intro hcontra
    have : s.orders.any
        (fun order => dictGet order "order_id" == dictGet c "order_id") = true :=
      List.any_eq_true.mpr ⟨a, ha, by simp [hcontra]⟩
    rw [this] at hd
    cases hd

/-! Invariants along a run of admission calls. -/

/-- The counter advances by exactly the number of successful calls. -/
theorem runAdmissions_counter (calls : List (JObject × String)) (s : SessionState) :
    (runAdmissions s calls).internal_tracking_counter =
      s.internal_tracking_counter + countSuccesses s calls := by
  induction calls generalizing s with
  | nil => rfl
  | cons ct rest ih =>
    obtain ⟨c, t⟩ := ct
    rw [runAdmissions, countSuccesses, ih, save_step_counter]
    cases hb : (save_order_to_state s c t).2.1 <;> (simp; try omega)

/-- The stored tracking numbers are `itnFormat 1 .. itnFormat counter`. -/
theorem runAdmissions_itns (calls : List (JObject × String)) (s : SessionState)
    (h2 : s.orders.map (fun o => dictGet o "internal_tracking_number") =
      (List.range s.internal_tracking_counter).map
        (fun i => JValue.str (itnFormat (i + 1)))) :
    (runAdmissions s calls).orders.map (fun o => dictGet o "internal_tracking_number") =
      (List.range (runAdmissions s calls).internal_tracking_counter).map
        (fun i => JValue.str (itnFormat (i + 1))) := by
  induction calls generalizing s with
  | nil => exact h2
  | cons ct rest ih =>
    obtain ⟨c, t⟩ := ct
    rw [runAdmissions]
    exact ih _ (save_step_itns s c t h2)

/-- The counter always equals the number of stored entries. -/
theorem runAdmissions_counter_length (calls : List (JObject × String)) (s : SessionState)
    (h : s.internal_tracking_counter = s.orders.length) :
    (runAdmissions s calls).internal_tracking_counter =
      (runAdmissions s calls).orders.length := by
  induction calls generalizing s with
  | nil => exact h
  | cons ct rest ih =>
    obtain ⟨c, t⟩ := ct
    rw [runAdmissions]
    exact ih _ (by rw [save_step_counter, save_step_length, h])

/-- The stored `order_id` values stay pairwise distinct. -/
theorem runAdmissions_pairwise (calls : List (JObject × String)) (s : SessionState)
    (h : s.orders.Pairwise (fun a b => dictGet a "order_id" ≠ dictGet b "order_id")) :
    (runAdmissions s calls).orders.Pairwise
      (fun a b => dictGet a "order_id" ≠ dictGet b "order_id") := by
  induction calls generalizing s with
  | nil => exact h
  | cons ct rest ih =>
    obtain ⟨c, t⟩ := ct
    rw [runAdmissions]
    exact ih _ (save_step_pairwise s c t h)

/-- The final ledger is the initial one followed by the entries the
successful calls appended, in call order. -/
theorem runAdmissions_orders_eq (calls : List (JObject × String)) (s : SessionState) :
    (runAdmissions s calls).orders = s.orders ++ admittedEntries s calls := by
  induction calls generalizing s with
  | nil => simp [runAdmissions, admittedEntries]
  | cons ct rest ih =>
    obtain ⟨c, t⟩ := ct
    rw [runAdmissions, admittedEntries, ih, ← List.append_assoc]
    congr 1
    exact save_step_orders s c t

/-! Correctness of the decimal rendering behind `itnFormat`. -/

/-- The fuelled digit extraction really computes the decimal digits:
its value is the input, whenever the fuel is sufficient. -/
theorem fromDigits_decDigitsAux (fuel : Nat) :
    ∀ n : Nat, n ≤ fuel → fromDigits (decDigitsAux fuel n) = n := by
  induction fuel with
  | zero =>
    intro n hn
    have h0 : n = 0 := Nat.le_zero.mp hn
    subst h0
    rfl
  | succ fuel ih =>
    intro n hn
    cases n with
    | zero => rfl
    | succ m =>
      rw [decDigitsAux, fromDigits]
      have hle : (m + 1) / 10 ≤ fuel := by
        have := Nat.div_lt_self (Nat.succ_pos m) (by norm_num : 1 < 10)
        omega
      rw [ih ((m + 1) / 10) hle]
      exact Nat.mod_add_div (m + 1) 10

/-- Every extracted digit is a decimal digit. -/
theorem decDigitsAux_lt (fuel : Nat) :
    ∀ n : Nat, ∀ d ∈ decDigitsAux fuel n, d < 10 := by
  induction fuel with
  | zero =>
    intro n d hd
    cases n <;> simp [decDigitsAux] at hd
  | succ fuel ih =>
    intro n d hd
    cases n with
    | zero => simp [decDigitsAux] at hd
    | succ m =>
      rw [decDigitsAux] at hd
      rcases List.mem_cons.mp hd with h | h
      · subst h
        exact Nat.mod_lt _ (by norm_num)
      · exact ih _ d h

/-- Reading the characters of a digit rendering back as a decimal
numeral recovers the value (with an arbitrary accumulator). -/
theorem foldl_rev_digits (L : List Nat) (hL : ∀ d ∈ L, d < 10) :
    ∀ a : Nat,
      List.foldl (fun acc c => 10 * acc + (c.toNat - 48)) a
          (L.reverse.map Nat.digitChar) =
        a * 10 ^ L.length + fromDigits L := by
  induction L with
  | nil => intro a; simp [fromDigits]
  | cons d L ih =>
    intro a
    have hd : d < 10 := hL d (List.mem_cons_self d L)
    have hL2 : ∀ x ∈ L, x < 10 := fun x hx => hL x (List.mem_cons_of_mem d hx)
    have hchar : ∀ e : Nat, e < 10 → (Nat.digitChar e).toNat - 48 = e := by decide
    rw [List.reverse_cons, List.map_append, List.foldl_append, ih hL2 a]
    simp only [List.map_cons, List.map_nil, List.foldl_cons, List.foldl_nil]
    rw [hchar d hd, fromDigits, List.length_cons]
    ring

/-- Reading the digit characters of `n` recovers `n`. -/
theorem decVal_digitChars (n : Nat) : decVal (digitChars n) = n := by
  rw [decVal, digitChars, decDigits]
  rw [foldl_rev_digits (decDigitsAux n n) (decDigitsAux_lt n n) 0]
  rw [fromDigits_decDigitsAux n n (Nat.le_refl n)]
  simp

/-- Accumulating leading zero characters leaves the value at zero. -/
theorem foldl_zeros (k : Nat) :
    List.foldl (fun a c => 10 * a + (c.toNat - 48)) 0 (List.replicate k '0') = 0 := by
  induction k with
  | zero => rfl
  | succ k ih =>
    rw [List.replicate_succ, List.foldl_cons]
    exact ih

/-- Zero padding does not change the decimal value. -/
theorem decVal_pad7 (cs : List Char) : decVal (pad7 cs) = decVal cs := by
  rw [pad7, decVal, decVal, List.foldl_append, foldl_zeros]

/-- The character list behind `itnFormat`. -/
theorem itnFormat_data (n : Nat) :
    (itnFormat n).data = 'I' :: 'T' :: 'N' :: '-' :: pad7 (digitChars n) := rfl

/-! Claim theorems. -/

/-- C1 (counter fidelity): starting from the empty ledger, after any
sequence of admission calls of which K succeed, the counter equals K,
and the K stored entries carry the internal tracking numbers
`itnFormat 1` = "ITN-0000001" through the zero-padded K, in admission
order. -/
theorem counter_fidelity (calls : List (JObject × String)) :
    (runAdmissions initialState calls).internal_tracking_counter =
        countSuccesses initialState calls ∧
      (runAdmissions initialState calls).orders.map
          (fun o => dictGet o "internal_tracking_number") =
        (List.range (countSuccesses initialState calls)).map
          (fun i => JValue.str (itnFormat (i + 1))) ∧
      itnFormat 1 = "ITN-0000001" := by
  have hc := runAdmissions_counter calls initialState
  have hi := runAdmissions_itns calls initialState (by simp [initialState])
  rw [hc] at hi
  exact ⟨by simpa [initialState] using hc, by simpa [initialState] using hi, rfl⟩

/-- C2 (uniqueness invariant): after any sequence of admission calls
from the empty ledger, no two entries of the resulting ledger share the
same non-null `order_id`: whenever two stored entries have equal
`order_id` values, that value is null.  (The code in fact keeps all
stored `order_id` values pairwise distinct, nulls included.) -/
theorem order_id_uniqueness (calls : List (JObject × String)) :
    (runAdmissions initialState calls).orders.Pairwise
      (fun a b => dictGet a "order_id" = dictGet b "order_id" →
        dictGet a "order_id" = JValue.null) := by
  have h := runAdmissions_pairwise calls initialState (by simp [initialState])
  exact h.imp (fun hne heq => absurd heq hne)

/-- C3 (duplicate idempotence): for every ledger state and every pair of
candidates carrying the same `order_id`, admitting the second right
after the first leaves the session state (entries and counter) exactly
as after the first admission alone. -/
theorem duplicate_idempotence (s : SessionState) (c1 c2 : JObject) (t1 t2 : String)
    (h : dictGet c1 "order_id" = dictGet c2 "order_id") :
    (save_order_to_state (save_order_to_state s c1 t1).1 c2 t2).1 =
      (save_order_to_state s c1 t1).1 := by
  cases hd : s.orders.any
      (fun order => dictGet order "order_id" == dictGet c1 "order_id") with
  | true =>
    rw [save_duplicate s c1 t1 hd]
    have hd2 : s.orders.any
        (fun order => dictGet order "order_id" == dictGet c2 "order_id") = true := by
      rw [← h]
      exact hd
    rw [save_duplicate s c2 t2 hd2]
  | false =>
    rw [save_fresh s c1 t1 hd]
    set e := data_to_save c1 (itnFormat (s.internal_tracking_counter + 1)) t1 with he
    have hmem : (s.orders ++ [e]).any
        (fun order => dictGet order "order_id" == dictGet c2 "order_id") = true := by
      have hoid : dictGet e "order_id" = dictGet c2 "order_id" := by
        rw [he, dictGet_save_order_id, h]
      simp [List.any_append, hoid]
    show (save_order_to_state (SessionState.mk (s.orders ++ [e])
        (s.internal_tracking_counter + 1)) c2 t2).1 =
      SessionState.mk (s.orders ++ [e]) (s.internal_tracking_counter + 1)
    rw [save_duplicate (SessionState.mk (s.orders ++ [e])
        (s.internal_tracking_counter + 1)) c2 t2 hmem]

/-- A candidate carrying `order_id = "PO-1"` (scenario A/B of the spec). -/
def po1Candidate : JObject := .cons "order_id" (.str "PO-1") .nil

/-- C3 witness: admitting PO-1 twice from the empty ledger yields the
same state as admitting it once. -/
theorem duplicate_idempotence_witness :
    dictGet po1Candidate "order_id" = dictGet po1Candidate "order_id" ∧
      (save_order_to_state (save_order_to_state initialState po1Candidate "t1").1
          po1Candidate "t2").1 =
        (save_order_to_state initialState po1Candidate "t1").1 :=
  ⟨rfl, duplicate_idempotence initialState po1Candidate po1Candidate "t1" "t2" rfl⟩

/-- C4 (atomic coupled update): every admission call either succeeds,
appending exactly one entry and incrementing the counter by exactly
one, or is rejected, leaving entries and counter untouched; and
consequently, from the empty ledger, the counter always equals the
number of entries ever admitted (entries are never removed). -/
theorem atomic_coupled_update :
    (∀ (s : SessionState) (c : JObject) (t : String),
        ((save_order_to_state s c t).2.1 = true ∧
          (∃ e, (save_order_to_state s c t).1.orders = s.orders ++ [e]) ∧
          (save_order_to_state s c t).1.internal_tracking_counter =
            s.internal_tracking_counter + 1) ∨
        ((save_order_to_state s c t).2.1 = false ∧
          (save_order_to_state s c t).1 = s)) ∧
      ∀ calls : List (JObject × String),
        (runAdmissions initialState calls).internal_tracking_counter =
          (runAdmissions initialState calls).orders.length := by
  constructor
  · intro s c t
    cases hd : s.orders.any
        (fun order => dictGet order "order_id" == dictGet c "order_id") with
    | true =>
      right
      rw [save_duplicate s c t hd]
      exact ⟨rfl, rfl⟩
    | false =>
      left
      rw [save_fresh s c t hd]
      exact ⟨rfl, ⟨_, rfl⟩, rfl⟩
  · intro calls
    exact runAdmissions_counter_length calls initialState rfl

/-- C5 (null order_id treated as a value): if some stored entry has a
null `order_id` and the candidate's `order_id` is also null (key absent
or JSON null), the admission call rejects the candidate as a duplicate
and leaves the state unchanged. -/
theorem null_order_id_duplicate (s : SessionState) (c : JObject) (t : String)
    (hs : ∃ o ∈ s.orders, dictGet o "order_id" = JValue.null)
    (hc : dictGet c "order_id" = JValue.null) :
    save_order_to_state s c t = (s, false, "Not Assigned (Duplicate Order)") := by
  obtain ⟨o, ho, hnull⟩ := hs
  apply save_duplicate
  exact List.any_eq_true.mpr ⟨o, ho, by simp [hnull, hc]⟩

/-- A candidate with no `order_id` key at all. -/
def noIdCandidate : JObject := .cons "customer_name" (.str "Sato") .nil

/-- C5 witness: after admitting a candidate without `order_id`, a second
candidate without `order_id` is rejected as a duplicate. -/
theorem null_order_id_duplicate_witness :
    (∃ o ∈ (save_order_to_state initialState noIdCandidate "t1").1.orders,
        dictGet o "order_id" = JValue.null) ∧
      dictGet noIdCandidate "order_id" = JValue.null ∧
      save_order_to_state (save_order_to_state initialState noIdCandidate "t1").1
          noIdCandidate "t2" =
        ((save_order_to_state initialState noIdCandidate "t1").1, false,
          "Not Assigned (Duplicate Order)") :=
  ⟨by decide, by decide,
    null_order_id_duplicate _ noIdCandidate "t2" (by decide) (by decide)⟩

/-- A successful call implies the duplicate scan came up empty. -/
theorem save_success_any_false (s : SessionState) (c : JObject) (t : String)
    (h : (save_order_to_state s c t).2.1 = true) :
    s.orders.any (fun order => dictGet order "order_id" == dictGet c "order_id") = false := by
  cases hd : s.orders.any
      (fun order => dictGet order "order_id" == dictGet c "order_id") with
  | true =>
    rw [save_duplicate s c t hd] at h
    cases h
  | false => rfl

/-- Scenario A's candidate: `order_id "PO-1"`, an amount and one item. -/
def itemsCandidate : JObject :=
  .cons "order_id" (.str "PO-1")
    (.cons "total_amount" (.int 100)
    (.cons "items" (.arr (.cons (.obj (.cons "product_name" (.str "Pen")
      (.cons "quantity" (.int 2)
      (.cons "unit_price" (.int 50) .nil)))) .nil)) .nil))

/-- C6 counterexample: the candidate carries an `items` field, the
admission succeeds, yet the single created entry has no `items` key —
the saved record only keeps the items inside `raw_json`. -/
theorem entry_lacks_items_counterexample :
    hasKey itemsCandidate "items" = true ∧
      (save_order_to_state initialState itemsCandidate "2025-09-01 10:00:00").2.1 = true ∧
      (save_order_to_state initialState itemsCandidate "2025-09-01 10:00:00").1.orders.map
        (fun o => hasKey o "items") = [false] := by decide

/-- C6 amended: every successful admission appends exactly one entry,
and that entry carries the candidate's `order_id`, `order_date`,
`customer_name`, `total_amount` and `delivery_address`, the fresh
internal tracking number, the extraction timestamp, and the full
original candidate under `raw_json` — but no top-level `items` field
(the items are only retained inside `raw_json`). -/
theorem ledger_entry_fields (s : SessionState) (c : JObject) (t : String)
    (h : (save_order_to_state s c t).2.1 = true) :
    ∃ e, (save_order_to_state s c t).1.orders = s.orders ++ [e] ∧
      dictGet e "order_id" = dictGet c "order_id" ∧
      dictGet e "order_date" = dictGet c "order_date" ∧
      dictGet e "customer_name" = dictGet c "customer_name" ∧
      dictGet e "total_amount" = dictGet c "total_amount" ∧
      dictGet e "delivery_address" = dictGet c "delivery_address" ∧
      dictGet e "internal_tracking_number" =
        JValue.str (itnFormat (s.internal_tracking_counter + 1)) ∧
      dictGet e "extraction_time" = JValue.str t ∧
      dictGet e "raw_json" = JValue.obj c ∧
      hasKey e "items" = false := by
  have hd := save_success_any_false s c t h
  rw [save_fresh s c t hd]
  exact ⟨data_to_save c (itnFormat (s.internal_tracking_counter + 1)) t, rfl,
    dictGet_save_order_id c _ t, dictGet_save_order_date c _ t,
    dictGet_save_customer_name c _ t, dictGet_save_total_amount c _ t,
    dictGet_save_delivery_address c _ t, dictGet_save_itn c _ t,
    dictGet_save_extraction_time c _ t, dictGet_save_raw_json c _ t,
    hasKey_save_items c _ t⟩

/-- C6 witness: the amended entry-shape theorem applied to the scenario
A candidate admitted into the empty ledger. -/
theorem ledger_entry_fields_witness :
    (save_order_to_state initialState itemsCandidate "t").2.1 = true ∧
      ∃ e, (save_order_to_state initialState itemsCandidate "t").1.orders =
          initialState.orders ++ [e] ∧
        dictGet e "order_id" = dictGet itemsCandidate "order_id" ∧
        dictGet e "order_date" = dictGet itemsCandidate "order_date" ∧
        dictGet e "customer_name" = dictGet itemsCandidate "customer_name" ∧
        dictGet e "total_amount" = dictGet itemsCandidate "total_amount" ∧
        dictGet e "delivery_address" = dictGet itemsCandidate "delivery_address" ∧
        dictGet e "internal_tracking_number" =
          JValue.str (itnFormat (initialState.internal_tracking_counter + 1)) ∧
        dictGet e "extraction_time" = JValue.str "t" ∧
        dictGet e "raw_json" = JValue.obj itemsCandidate ∧
        hasKey e "items" = false :=
  ⟨by decide, ledger_entry_fields initialState itemsCandidate "t" (by decide)⟩

/-- C7 counterexample: rejecting the duplicate of PO-1 returns
`(False, "Not Assigned (Duplicate Order)")`; the offending order id
"PO-1" does not occur anywhere in the returned message, so the returned
rejection outcome does not carry it. -/
theorem rejection_message_lacks_id_counterexample :
    (save_order_to_state (save_order_to_state initialState po1Candidate "t1").1
        po1Candidate "t2").2 = (false, "Not Assigned (Duplicate Order)") ∧
      ¬ (("PO-1").data <:+:
        (save_order_to_state (save_order_to_state initialState po1Candidate "t1").1
          po1Candidate "t2").2.2.data) := by decide

/-- C7 amended: when admission rejects a candidate, the returned outcome
is the constant message "Not Assigned (Duplicate Order)" — it does not
carry the offending order id (that id only appears in the displayed
warning) — and the state is unchanged. -/
theorem rejection_outcome_constant (s : SessionState) (c : JObject) (t : String)
    (h : (save_order_to_state s c t).2.1 = false) :
    (save_order_to_state s c t).2.2 = "Not Assigned (Duplicate Order)" ∧
      (save_order_to_state s c t).1 = s := by
  cases hd : s.orders.any
      (fun order => dictGet order "order_id" == dictGet c "order_id") with
  | true =>
    rw [save_duplicate s c t hd]
    exact ⟨rfl, rfl⟩
  | false =>
    rw [save_fresh s c t hd] at h
    simp at h

/-- C7 witness: the amended rejection theorem applied to the PO-1
duplicate. -/
theorem rejection_outcome_constant_witness :
    (save_order_to_state (save_order_to_state initialState po1Candidate "t1").1
        po1Candidate "t2").2.1 = false ∧
      (save_order_to_state (save_order_to_state initialState po1Candidate "t1").1
          po1Candidate "t2").2.2 = "Not Assigned (Duplicate Order)" ∧
        (save_order_to_state (save_order_to_state initialState po1Candidate "t1").1
            po1Candidate "t2").1 =
          (save_order_to_state initialState po1Candidate "t1").1 :=
  ⟨by decide, rejection_outcome_constant _ po1Candidate "t2" (by decide)⟩

/-- C8 counterexample: the empty JSON object parses as an object, but is
falsy in the `if extracted_data:` guard, so it is never handed to
admission — even though the admission routine itself would have
accepted it (second conjunct). -/
theorem empty_object_skipped_counterexample :
    process_extracted initialState (some JObject.nil) "t" = (initialState, none) ∧
      (save_order_to_state initialState JObject.nil "t").2.1 = true := by decide

/-- C8 amended: for every candidate that parses as a non-empty JSON
object, the main flow hands it to admission unchanged (missing or null
fields are not a failure), and on success the stored entry holds null
for each candidate field whose key is absent.  (The empty object is the
exception: `if extracted_data:` treats it as falsy and silently skips
admission.) -/
theorem missing_fields_stored_as_null (s : SessionState) (d : JObject) (t : String)
    (h : d ≠ JObject.nil) :
    process_extracted s (some d) t =
        ((save_order_to_state s d t).1, some (save_order_to_state s d t).2) ∧
      ((save_order_to_state s d t).2.1 = true →
        ∃ e, (save_order_to_state s d t).1.orders = s.orders ++ [e] ∧
          (hasKey d "order_id" = false → dictGet e "order_id" = JValue.null) ∧
          (hasKey d "order_date" = false → dictGet e "order_date" = JValue.null) ∧
          (hasKey d "customer_name" = false →
            dictGet e "customer_name" = JValue.null) ∧
          (hasKey d "total_amount" = false →
            dictGet e "total_amount" = JValue.null) ∧
          (hasKey d "delivery_address" = false →
            dictGet e "delivery_address" = JValue.null)) := by
  have ht : truthy d = true := by
    match d with
    | .cons k v rest => rfl
    | .nil => exact absurd rfl h
  constructor
  · simp [process_extracted, ht]
  · intro hsucc
    have hd := save_success_any_false s d t hsucc
    rw [save_fresh s d t hd]
    refine ⟨data_to_save d (itnFormat (s.internal_tracking_counter + 1)) t, rfl,
      ?_, ?_, ?_, ?_, ?_⟩
    · intro hk
      rw [dictGet_save_order_id]
      exact dictGet_eq_null_of_hasKey_false d _ hk
    · intro hk
      rw [dictGet_save_order_date]
      exact dictGet_eq_null_of_hasKey_false d _ hk
    · intro hk
      rw [dictGet_save_customer_name]
      exact dictGet_eq_null_of_hasKey_false d _ hk
    · intro hk
      rw [dictGet_save_total_amount]
      exact dictGet_eq_null_of_hasKey_false d _ hk
    · intro hk
      rw [dictGet_save_delivery_address]
      exact dictGet_eq_null_of_hasKey_false d _ hk

/-- A candidate whose only field is its order id. -/
def onlyIdCandidate : JObject := .cons "order_id" (.str "PO-9") .nil

/-- C8 witness: the amended theorem applied to a one-field candidate:
it is handed to admission, and all the absent fields are stored null. -/
theorem missing_fields_stored_as_null_witness :
    onlyIdCandidate ≠ JObject.nil ∧
      (process_extracted initialState (some onlyIdCandidate) "t" =
          ((save_order_to_state initialState onlyIdCandidate "t").1,
            some (save_order_to_state initialState onlyIdCandidate "t").2) ∧
        ((save_order_to_state initialState onlyIdCandidate "t").2.1 = true →
          ∃ e, (save_order_to_state initialState onlyIdCandidate "t").1.orders =
              initialState.orders ++ [e] ∧
            (hasKey onlyIdCandidate "order_id" = false →
              dictGet e "order_id" = JValue.null) ∧
            (hasKey onlyIdCandidate "order_date" = false →
              dictGet e "order_date" = JValue.null) ∧
            (hasKey onlyIdCandidate "customer_name" = false →
              dictGet e "customer_name" = JValue.null) ∧
            (hasKey onlyIdCandidate "total_amount" = false →
              dictGet e "total_amount" = JValue.null) ∧
            (hasKey onlyIdCandidate "delivery_address" = false →
              dictGet e "delivery_address" = JValue.null))) :=
  ⟨by decide, missing_fields_stored_as_null initialState onlyIdCandidate "t" (by decide)⟩

/-- C9 (order preservation and read-only listing): after any sequence of
admissions from the empty ledger, the ledger list (which the history
view iterates in insertion order) is exactly the list of admitted
entries in admission order; the displayed history is the exact reverse
of the projected rows of that list; and the display path leaves the
session state unchanged. -/
theorem order_preservation (calls : List (JObject × String)) :
    (runAdmissions initialState calls).orders = admittedEntries initialState calls ∧
      (order_history_display (runAdmissions initialState calls)).2 =
        ((admittedEntries initialState calls).map displayRow).reverse ∧
      (order_history_display (runAdmissions initialState calls)).1 =
        runAdmissions initialState calls := by
  have h0 : (runAdmissions initialState calls).orders =
      admittedEntries initialState calls := by
    simpa [initialState] using runAdmissions_orders_eq calls initialState
  exact ⟨h0, by simp [order_history_display, h0], rfl⟩

/-- C10 (tracking-number injectivity): the formatting map
`n ↦ "ITN-" ++ (n zero-padded to 7 digits)` is injective over the
positive integers, so tracking numbers never collide or wrap, also for
counter values above 9999999 where the rendering exceeds 7 digits. -/
theorem itnFormat_injective (a b : Nat) (ha : 0 < a) (hb : 0 < b)
    (h : itnFormat a = itnFormat b) : a = b := by
  have hdata := congrArg String.data h
  rw [itnFormat_data, itnFormat_data] at hdata
  have hpad : pad7 (digitChars a) = pad7 (digitChars b) := by
    simpa using hdata
  have hval := congrArg decVal hpad
  rw [decVal_pad7, decVal_pad7, decVal_digitChars, decVal_digitChars] at hval
  exact hval

/-- C10 witness: the injectivity theorem applied at 2 and 2. -/
theorem itnFormat_injective_witness :
    0 < 2 ∧ itnFormat 2 = itnFormat 2 ∧ (2 : Nat) = 2 :=
  ⟨by decide, rfl, itnFormat_injective 2 2 (by decide) (by decide) rfl⟩
